import Mathlib

set_option maxRecDepth 8000

/-!
Formal model of the crates.io tarball validation pipeline, a shallow
embedding of `crates_io_tarball/src/lib.rs` (`process_tarball`) and
`crates_io_tarball/src/manifest.rs` (`validate_manifest`,
`validate_package`, `validate_rust_version`).

The archive is modelled after gzip decompression: the decompressed byte
stream is a tar serialization of a list of entries (512-byte header per
entry, contents padded to a 512-byte boundary, and a 1024-byte
end-of-archive trailer).  The byte cap enforced by `LimitErrorReader`
(crates_io_tarball/src/limit_reader.rs, whose source is not part of this
tree) is modelled from the spec as byte accounting over that
serialization.  The external `cargo_toml` TOML parser and the
`CargoVcsInfo` JSON parser (crates_io_tarball/src/vcs_info.rs, also not
part of this tree) are taken as parameters of the pipeline, so every
theorem quantifies over their behavior.
-/

-- Decidable equality on `Except` values, used to evaluate concrete runs.
deriving instance DecidableEq for Except

/-- Splits a character list at every occurrence of the separator, keeping
empty pieces, with the semantics of `String::split` on one separator
character (structural recursion, so that concrete runs reduce in the
kernel). -/
def splitOnChar (sep : Char) : List Char → List (List Char)
  | [] => [[]]
  | x :: xs =>
    match splitOnChar sep xs with
    | y :: ys => if x = sep then [] :: y :: ys else (x :: y) :: ys
    | [] => if x = sep then [[], []] else [[x]]

/-- Components of a Unix filesystem path, mirroring `std::path::Component`. -/
inductive PathComponent where
  | rootDir
  | curDir
  | parentDir
  | normal (s : String)
deriving DecidableEq

/-- Path components of a raw path string, following the normalization done by
`std::path::Path::components` on Unix: empty segments and interior `"."`
segments are dropped, a leading `"/"` yields `rootDir`, and a leading `"."`
segment of a relative path is kept as `curDir`. -/
def pathComponents (p : String) : List PathComponent :=
  let body := ((splitOnChar '/' p.data).filter
      (fun s => !s.isEmpty && s != ['.'])).map
    (fun s =>
      if s = ['.', '.'] then PathComponent.parentDir
      else PathComponent.normal (String.mk s))
  match p.data with
  | '/' :: _ => PathComponent.rootDir :: body
  | ['.'] => PathComponent.curDir :: body
  | '.' :: '/' :: _ => PathComponent.curDir :: body
  | _ => body

/-- Decides whether `base` is a component-wise prefix of `alist`; this is the
comparison underlying `std::path::Path::starts_with`. -/
def componentsStartWith : List PathComponent → List PathComponent → Bool
  | [], _ => true
  | _ :: _, [] => false
  | b :: bs, a :: as => if b = a then componentsStartWith bs as else false

/-- Model of `Path::starts_with`: the components of `base` are a prefix of the
components of `p` (whole components, not raw string prefixes). -/
def pathStartsWith (p base : String) : Bool :=
  componentsStartWith (pathComponents base) (pathComponents p)

/-- Model of `PartialEq` on `std::path::Path`: equality of component lists. -/
def pathEq (a b : String) : Bool :=
  decide (pathComponents a = pathComponents b)

/-- Model of `Path::new(base).join(rel)` for a relative `rel`. -/
def pathJoin (base rel : String) : String :=
  if base = "" then rel
  else if base.data.getLast? = some '/' then base ++ rel
  else base ++ "/" ++ rel

/-! cargo_toml data model.  These types mirror the fields of the external
`cargo_toml` crate that the repository's validation code reads: each package
field is either `set` to a concrete value or `inherited` from a workspace. -/

/-- Mirror of `cargo_toml::Inheritable<T>`: a concrete value or a deferred
workspace inheritance marker. -/
inductive Inheritable (α : Type) where
  | set (value : α)
  | inherited
deriving DecidableEq

/-- Mirror of `cargo_toml::Inheritable::is_set`. -/
def Inheritable.is_set {α : Type} : Inheritable α → Bool
  | .set _ => true
  | .inherited => false

/-- Mirror of the repository's `IsInherited` impl for `Inheritable<T>`
(`crates_io_tarball/src/manifest.rs`): `!self.is_set()`. -/
def Inheritable.is_inherited {α : Type} (x : Inheritable α) : Bool :=
  !x.is_set

/-- Mirror of the repository's `IsInherited` impl for `Option<T>`: `None` is
not inherited. -/
def optionIsInherited {α : Type} (f : α → Bool) : Option α → Bool
  | none => false
  | some x => f x

/-- Mirror of `cargo_toml::Edition`. -/
inductive Edition where
  | e2015
  | e2018
  | e2021
deriving DecidableEq

/-- Mirror of `cargo_toml::OptionalFile` (readme/license-file policy). -/
inductive OptionalFile where
  | flag (b : Bool)
  | path (p : String)
deriving DecidableEq

/-- Mirror of `cargo_toml::Publish`. -/
inductive Publish where
  | flag (b : Bool)
  | registries (rs : List String)
deriving DecidableEq

/-- Mirror of `cargo_toml::Dependency`: a plain version requirement, a
detailed table, or a workspace-inherited dependency. -/
inductive Dependency where
  | simple (req : String)
  | detailed (req : String)
  | inheritedDep
deriving DecidableEq

/-- Mirror of the repository's `IsInherited` impl for `Dependency`:
`matches!(self, Dependency::Inherited(_))`. -/
def Dependency.is_inherited : Dependency → Bool
  | .inheritedDep => true
  | _ => false

/-- Mirror of `cargo_toml::DepsSet` (a map from dependency name to
dependency), modelled as an association list. -/
abbrev DepsSet : Type := List (String × Dependency)

/-- Mirror of the repository's `IsInherited` impl for `DepsSet`: some entry's
dependency is inherited. -/
def depsSetIsInherited (ds : DepsSet) : Bool :=
  ds.any (fun kv => kv.2.is_inherited)

/-- Mirror of the `cargo_toml::Package` fields read by
`crates_io_tarball/src/manifest.rs`. -/
structure Package where
  name : String
  edition : Inheritable Edition
  rust_version : Option (Inheritable String)
  version : Inheritable String
  authors : Inheritable (List String)
  description : Option (Inheritable String)
  homepage : Option (Inheritable String)
  documentation : Option (Inheritable String)
  readme : Inheritable OptionalFile
  keywords : Inheritable (List String)
  categories : Inheritable (List String)
  exclude : Inheritable (List String)
  -- the source field is named `include`, a Lean keyword
  include_list : Inheritable (List String)
  license : Option (Inheritable String)
  license_file : Option (Inheritable String)
  repository : Option (Inheritable String)
  publish : Inheritable Publish
deriving DecidableEq

/-- Mirror of `cargo_toml::Package::rust_version()`: the concrete
rust-version string, when the field is present and set. -/
def Package.rustVersionStr (p : Package) : Option String :=
  match p.rust_version with
  | some (.set v) => some v
  | _ => none

/-- Mirror of the `cargo_toml::Manifest` fields read by the repository's
validation code. -/
structure Manifest where
  package : Option Package
  dependencies : DepsSet
  dev_dependencies : DepsSet
  build_dependencies : DepsSet
deriving DecidableEq

/-- Mirror of `cargo_toml::Error`, restricted to the variants produced by the
code under verification: a TOML parse diagnostic, a static message, or the
`InheritedUnknownValue` marker. -/
inductive CargoTomlError where
  | parse (msg : String)
  | other (msg : String)
  | inheritedUnknownValue
deriving DecidableEq

/-! Model of the `semver` crate's `VersionReq::parse`, for the fragment of
its grammar relevant to `validate_rust_version`: a comma-separated list of
comparators, each an optional operator (`=`, `>`, `>=`, `<`, `<=`, `~`, `^`)
followed by a dotted, possibly partial version with optional pre-release and
build-metadata suffixes.  Numeric components may not have leading zeros. -/

/-- Numeric version component: nonempty, all ASCII digits, no leading zero. -/
def Semver.numOk (s : List Char) : Bool :=
  !s.isEmpty && s.all Char.isDigit && (s.length == 1 || s.head? != some '0')

/-- Wildcard version component (`*`, `x`, `X`). -/
def Semver.wildOk (s : List Char) : Bool :=
  s == ['*'] || s == ['x'] || s == ['X']

/-- Version core of a comparator: one to three dot-separated components,
numeric except for trailing wildcards. -/
def Semver.coreOk (parts : List (List Char)) : Bool :=
  match parts with
  | [a] => Semver.numOk a || Semver.wildOk a
  | [a, b] => Semver.numOk a && (Semver.numOk b || Semver.wildOk b)
  | [a, b, c] =>
    Semver.numOk a &&
      ((Semver.numOk b && (Semver.numOk c || Semver.wildOk c)) ||
        (Semver.wildOk b && Semver.wildOk c))
  | _ => false

/-- Pre-release / build identifier: nonempty alphanumerics and hyphens. -/
def Semver.identOk (s : List Char) : Bool :=
  !s.isEmpty && s.all (fun c => c.isAlphanum || c == '-')

/-- Dot-separated identifier list for pre-release / build suffixes. -/
def Semver.identsOk (s : List Char) : Bool :=
  (splitOnChar '.' s).all Semver.identOk

/-- Optional `-pre` / `+build` suffix after the version core. -/
def Semver.suffixOk : List Char → Bool
  | [] => true
  | '-' :: rest =>
    let pre := rest.takeWhile (fun c => c != '+')
    let build := rest.drop pre.length
    Semver.identsOk pre &&
      (build.isEmpty ||
        (match build with
         | '+' :: b => Semver.identsOk b
         | _ => false))
  | '+' :: rest => Semver.identsOk rest
  | _ => false

/-- Strips one leading comparison operator, two-character operators first. -/
def Semver.stripOp : List Char → List Char
  | '>' :: '=' :: t => t
  | '<' :: '=' :: t => t
  | '>' :: t => t
  | '<' :: t => t
  | '=' :: t => t
  | '~' :: t => t
  | '^' :: t => t
  | t => t

/-- Drops leading and trailing spaces around a comparator. -/
def Semver.trimSpaces (s : List Char) : List Char :=
  ((s.dropWhile (fun c => c == ' ')).reverse.dropWhile (fun c => c == ' ')).reverse

/-- Acceptance of one comparator of a version requirement. -/
def Semver.comparatorOk (s : List Char) : Bool :=
  let t := (Semver.stripOp (Semver.trimSpaces s)).dropWhile (fun c => c == ' ')
  let core := t.takeWhile (fun c => c != '-' && c != '+')
  let suffix := t.drop core.length
  Semver.coreOk (splitOnChar '.' core) && Semver.suffixOk suffix

/-- Model of `semver::VersionReq::parse(s).is_ok()`: every comma-separated
comparator is well-formed (an empty string has one empty comparator and is
rejected). -/
def Semver.versionReqParses (s : String) : Bool :=
  (splitOnChar ',' s.data).all Semver.comparatorOk

/-! Validators, translated from `crates_io_tarball/src/manifest.rs`. -/

/-- Translation of `validate_rust_version`: the value must parse as a version
requirement and contain only ASCII digits and `.`, otherwise the result is
the `Error::Other("invalid rust-version value")` diagnostic. -/
def validate_rust_version (value : String) : Except CargoTomlError Unit :=
  if Semver.versionReqParses value then
    if value.data.all (fun c => c.isDigit || c == '.') then Except.ok ()
    else Except.error (.other "invalid `rust-version` value")
  else Except.error (.other "invalid `rust-version` value")

/-- Disjunction of the sixteen per-field inheritance checks performed by
`validate_package`, in source order. -/
def packageFieldInherited (package : Package) : Bool :=
  package.edition.is_inherited ||
  optionIsInherited Inheritable.is_inherited package.rust_version ||
  package.version.is_inherited ||
  package.authors.is_inherited ||
  optionIsInherited Inheritable.is_inherited package.description ||
  optionIsInherited Inheritable.is_inherited package.homepage ||
  optionIsInherited Inheritable.is_inherited package.documentation ||
  package.readme.is_inherited ||
  package.keywords.is_inherited ||
  package.categories.is_inherited ||
  package.exclude.is_inherited ||
  package.include_list.is_inherited ||
  optionIsInherited Inheritable.is_inherited package.license ||
  optionIsInherited Inheritable.is_inherited package.license_file ||
  optionIsInherited Inheritable.is_inherited package.repository ||
  package.publish.is_inherited

/-- Translation of `validate_package`: reject any workspace-inherited field
with `InheritedUnknownValue`, then validate the rust-version string if one is
present. -/
def validate_package (package : Package) : Except CargoTomlError Unit :=
  if packageFieldInherited package then
    Except.error .inheritedUnknownValue
  else
    match package.rustVersionStr with
    | some rust_version => validate_rust_version rust_version
    | none => Except.ok ()

/-- Translation of `validate_manifest`: a `[package]` table must exist, the
package must validate, and no dependency set may contain a
workspace-inherited dependency. -/
def validate_manifest (manifest : Manifest) : Except CargoTomlError Unit :=
  match manifest.package with
  | none => Except.error (.other "missing field `package`")
  | some package =>
    match validate_package package with
    | Except.error e => Except.error e
    | Except.ok _ =>
      if depsSetIsInherited manifest.dependencies ||
          depsSetIsInherited manifest.dev_dependencies ||
          depsSetIsInherited manifest.build_dependencies then
        Except.error .inheritedUnknownValue
      else Except.ok ()

/-! Byte-level helpers: UTF-8 decoding (the behavior of
`std::io::Read::read_to_string`, which fails with an
`ErrorKind::InvalidData` I/O error on invalid UTF-8) and tar serialization
sizes. -/

/-- UTF-8 continuation byte (`0x80..=0xBF`). -/
def contByte (b : Nat) : Bool := 0x80 ≤ b && b ≤ 0xBF

/-- Strict UTF-8 decoder over a byte list, returning `none` on any encoding
error (overlong forms, surrogates and out-of-range code points included),
per RFC 3629. -/
def utf8DecodeAux : List Nat → Option (List Char)
  | [] => some []
  | b :: bs =>
    if b ≤ 0x7F then
      (utf8DecodeAux bs).map (fun cs => Char.ofNat b :: cs)
    else if 0xC2 ≤ b && b ≤ 0xDF then
      match bs with
      | b1 :: bs' =>
        if contByte b1 then
          (utf8DecodeAux bs').map
            (fun cs => Char.ofNat ((b - 0xC0) * 64 + (b1 - 0x80)) :: cs)
        else none
      | [] => none
    else if 0xE0 ≤ b && b ≤ 0xEF then
      match bs with
      | b1 :: b2 :: bs' =>
        let b1ok :=
          if b = 0xE0 then 0xA0 ≤ b1 && b1 ≤ 0xBF
          else if b = 0xED then 0x80 ≤ b1 && b1 ≤ 0x9F
          else contByte b1
        if b1ok && contByte b2 then
          (utf8DecodeAux bs').map
            (fun cs =>
              Char.ofNat ((b - 0xE0) * 4096 + (b1 - 0x80) * 64 + (b2 - 0x80)) :: cs)
        else none
      | _ => none
    else if 0xF0 ≤ b && b ≤ 0xF4 then
      match bs with
      | b1 :: b2 :: b3 :: bs' =>
        let b1ok :=
          if b = 0xF0 then 0x90 ≤ b1 && b1 ≤ 0xBF
          else if b = 0xF4 then 0x80 ≤ b1 && b1 ≤ 0x8F
          else contByte b1
        if b1ok && contByte b2 && contByte b3 then
          (utf8DecodeAux bs').map
            (fun cs =>
              Char.ofNat
                ((b - 0xF0) * 262144 + (b1 - 0x80) * 4096 +
                  (b2 - 0x80) * 64 + (b3 - 0x80)) :: cs)
        else none
      | _ => none
    else none

/-- UTF-8 decoding of a full byte list to a string, `none` on invalid input. -/
def utf8Decode? (bs : List Nat) : Option String :=
  (utf8DecodeAux bs).map (fun cs => String.mk cs)

/-- UTF-8 bytes of an ASCII string (used to build concrete archives). -/
def asciiBytes (s : String) : List Nat :=
  s.data.map (fun c => c.toNat)

/-- Rounds a content length up to the 512-byte tar block boundary. -/
def pad512 (n : Nat) : Nat := ((n + 511) / 512) * 512

/-! Tar archive model.  An entry records the declared path string, the header
entry type and the content bytes; the decompressed stream that the
caller-supplied cap applies to is the tar serialization of the entry list. -/

/-- Mirror of `tar::EntryType`, restricted to the distinctions the code
makes. -/
inductive EntryType where
  | regular
  | directory
  | symlink
  | hardLink
  | other
deriving DecidableEq

/-- Mirror of `entry_type.is_hard_link() || entry_type.is_symlink()`. -/
def EntryType.isLink : EntryType → Bool
  | .symlink => true
  | .hardLink => true
  | _ => false

/-- One tar archive entry: declared path, header entry type, content bytes. -/
structure Entry where
  path : String
  entry_type : EntryType
  contents : List Nat
deriving DecidableEq

/-- Decompressed bytes occupied by one entry: a 512-byte header plus the
contents padded to a 512-byte boundary. -/
def entrySize (e : Entry) : Nat := 512 + pad512 e.contents.length

/-- Decompressed bytes occupied by a list of entries. -/
def entriesSize : List Entry → Nat
  | [] => 0
  | e :: es => entrySize e + entriesSize es

/-- Total decompressed size of the archive: all entries plus the two
512-byte zero blocks of the end-of-archive trailer. -/
def tarSize (es : List Entry) : Nat := entriesSize es + 1024

/-- Mirror of the `std::io::Error` values that can reach `TarballError` in
this model: the `LimitErrorReader` cap error and the invalid-UTF-8 error of
`read_to_string`. -/
inductive IoErr where
  | limitReached
  | invalidUtf8
deriving DecidableEq

/-- Mirror of `TarballError` (`crates_io_tarball/src/lib.rs`).  The source
variant named `IO` is spelled `Io` here. -/
inductive TarballError where
  | Malformed (e : IoErr)
  | InvalidPath (path : String)
  | UnexpectedSymlink (path : String)
  | MissingManifest
  | InvalidManifest (e : CargoTomlError)
  | Io (e : IoErr)
deriving DecidableEq

/-- Modelled from the spec: the tolerant `.cargo_vcs_info.json` structure of
`crates_io_tarball/src/vcs_info.rs` (not part of this tree), holding the
`path_in_vcs` string that defaults to empty. -/
structure CargoVcsInfo where
  path_in_vcs : String
deriving DecidableEq

/-- Mirror of `TarballInfo`: the successful pipeline outcome. -/
structure TarballInfo where
  manifest : Manifest
  vcs_info : Option CargoVcsInfo
deriving DecidableEq

/-- Shape of the external `cargo_toml::Manifest::from_str` parser: TOML text
to manifest or diagnostic.  The pipeline is parameterized over it. -/
abbrev TomlFromStr : Type := String → Except CargoTomlError Manifest

/-- Shape of `CargoVcsInfo::from_contents` (vcs_info.rs, not part of this
tree): JSON text to VCS info or parse error. -/
abbrev VcsFromContents : Type := String → Except String CargoVcsInfo

/-- Mirror of `Path::new(&pkg_name).join(".cargo_vcs_info.json")`. -/
def vcs_info_path (pkg_name : String) : String :=
  pathJoin pkg_name ".cargo_vcs_info.json"

/-- Mirror of `Path::new(&pkg_name).join("Cargo.toml")`. -/
def manifest_path (pkg_name : String) : String :=
  pathJoin pkg_name "Cargo.toml"

/-- Mirror of `Path::new(&pkg_name).join("cargo.toml")`. -/
def manifest_path_lower (pkg_name : String) : String :=
  pathJoin pkg_name "cargo.toml"

/-- One pass of the `for entry in archive.entries()?` loop of
`process_tarball`, with explicit byte accounting for the spec-modelled
`LimitErrorReader` cap (`max_unpack`): `pos` is the decompressed offset at
which the current entry's header starts.  Reads that would run past the cap
fail; a failing read inside the entry iterator is wrapped as `Malformed`
(line 68 of lib.rs), while a failing `read_to_string` of a recognized
entry's contents propagates as an I/O error (`?` on lines 94 and 100). -/
def processLoop (fromStr : TomlFromStr) (vcsParse : VcsFromContents)
    (pkg_name : String) (max_unpack : Nat) :
    List Entry → Nat → Option Manifest → Option CargoVcsInfo →
    Except TarballError TarballInfo
  | [], pos, manifest?, vcs_info =>
    if max_unpack < pos + 1024 then Except.error (.Malformed .limitReached)
    else
      match manifest? with
      | none => Except.error .MissingManifest
      | some manifest => Except.ok ⟨manifest, vcs_info⟩
  | e :: rest, pos, manifest?, vcs_info =>
    if max_unpack < pos + 512 then Except.error (.Malformed .limitReached)
    else if !pathStartsWith e.path pkg_name then
      Except.error (.InvalidPath e.path)
    else if e.entry_type.isLink then
      Except.error (.UnexpectedSymlink e.path)
    else if pathEq e.path (vcs_info_path pkg_name) then
      if max_unpack < pos + 512 + e.contents.length then
        Except.error (.Io .limitReached)
      else
        match utf8Decode? e.contents with
        | none => Except.error (.Io .invalidUtf8)
        | some contents =>
          processLoop fromStr vcsParse pkg_name max_unpack rest
            (pos + entrySize e) manifest? (vcsParse contents).toOption
    else if pathEq e.path (manifest_path pkg_name) ||
        pathEq e.path (manifest_path_lower pkg_name) then
      if max_unpack < pos + 512 + e.contents.length then
        Except.error (.Io .limitReached)
      else
        match utf8Decode? e.contents with
        | none => Except.error (.Io .invalidUtf8)
        | some contents =>
          match fromStr contents with
          | Except.error err => Except.error (.InvalidManifest err)
          | Except.ok manifest =>
            match validate_manifest manifest with
            | Except.error err => Except.error (.InvalidManifest err)
            | Except.ok _ =>
              processLoop fromStr vcsParse pkg_name max_unpack rest
                (pos + entrySize e) (some manifest) vcs_info
    else
      processLoop fromStr vcsParse pkg_name max_unpack rest
        (pos + entrySize e) manifest? vcs_info

/-- Translation of `process_tarball` over the decompressed archive: walk the
entries in stream order from offset 0 with no manifest or VCS info captured
yet. -/
def process_tarball (fromStr : TomlFromStr) (vcsParse : VcsFromContents)
    (pkg_name : String) (entries : List Entry) (max_unpack : Nat) :
    Except TarballError TarballInfo :=
  processLoop fromStr vcsParse pkg_name max_unpack entries 0 none none

/-! Scan-level description of a run: which entries are recognized, what a
clean (non-aborting) entry is, and the state the loop accumulates. -/

/-- The entry matches one of the two manifest candidate paths. -/
def isManifestCandidate (pkg_name : String) (e : Entry) : Bool :=
  pathEq e.path (manifest_path pkg_name) ||
    pathEq e.path (manifest_path_lower pkg_name)

/-- The entry matches the VCS info path. -/
def isVcsCandidate (pkg_name : String) (e : Entry) : Bool :=
  pathEq e.path (vcs_info_path pkg_name)

/-- A clean entry: it passes the path and link checks, and if it is a
recognized entry its contents decode as UTF-8 and (for a manifest
candidate) parse and validate.  Processing a clean entry never aborts the
pipeline, cap permitting. -/
def entryClean (fromStr : TomlFromStr) (pkg_name : String) (e : Entry) : Bool :=
  pathStartsWith e.path pkg_name && !e.entry_type.isLink &&
    (if isVcsCandidate pkg_name e then (utf8Decode? e.contents).isSome
     else if isManifestCandidate pkg_name e then
       match utf8Decode? e.contents with
       | none => false
       | some s =>
         match fromStr s with
         | Except.error _ => false
         | Except.ok m =>
           match validate_manifest m with
           | Except.ok _ => true
           | Except.error _ => false
     else true)

/-- State transition of the loop for one clean entry: a VCS candidate
overwrites the captured VCS info with the parse result (downgraded to an
option), a manifest candidate overwrites the captured manifest. -/
def scanStep (fromStr : TomlFromStr) (vcsParse : VcsFromContents)
    (pkg_name : String) (acc : Option Manifest × Option CargoVcsInfo)
    (e : Entry) : Option Manifest × Option CargoVcsInfo :=
  if isVcsCandidate pkg_name e then
    match utf8Decode? e.contents with
    | some s => (acc.1, (vcsParse s).toOption)
    | none => acc
  else if isManifestCandidate pkg_name e then
    match utf8Decode? e.contents with
    | some s =>
      match fromStr s with
      | Except.ok m => (some m, acc.2)
      | Except.error _ => acc
    | none => acc
  else acc

/-- Accumulated manifest / VCS state after scanning a list of entries. -/
def scanEntries (fromStr : TomlFromStr) (vcsParse : VcsFromContents)
    (pkg_name : String) (es : List Entry)
    (acc : Option Manifest × Option CargoVcsInfo) :
    Option Manifest × Option CargoVcsInfo :=
  es.foldl (scanStep fromStr vcsParse pkg_name) acc

/-! Concrete instantiations used by witnesses and counterexamples.  The
pipeline theorems quantify over the external parsers; these provide one
definite choice to evaluate concrete archives with. -/

/-- TOML text of a minimal fully-resolved manifest. -/
def demoManifestText : String :=
  "[package]\nname = \"foo\"\nversion = \"0.0.1\"\n"

/-- TOML text of a second, distinct fully-resolved manifest. -/
def demoManifestText2 : String :=
  "[package]\nname = \"foo\"\nversion = \"0.0.2\"\n"

/-- Fully resolved package corresponding to `demoManifestText`, with the
defaults `cargo_toml` fills in for absent fields. -/
def demoPackage : Package where
  name := "foo"
  edition := .set .e2015
  rust_version := none
  version := .set "0.0.1"
  authors := .set []
  description := none
  homepage := none
  documentation := none
  readme := .set (.flag true)
  keywords := .set []
  categories := .set []
  exclude := .set []
  include_list := .set []
  license := none
  license_file := none
  repository := none
  publish := .set (.flag true)

/-- Package of the second demo manifest (version 0.0.2). -/
def demoPackage2 : Package :=
  { demoPackage with version := .set "0.0.2" }

/-- Manifest value for `demoManifestText`. -/
def demoManifest : Manifest where
  package := some demoPackage
  dependencies := []
  dev_dependencies := []
  build_dependencies := []

/-- Manifest value for `demoManifestText2`. -/
def demoManifest2 : Manifest where
  package := some demoPackage2
  dependencies := []
  dev_dependencies := []
  build_dependencies := []

/-- Stand-in for the external `cargo_toml::Manifest::from_str` on the two
demo manifests; anything else is a parse diagnostic. -/
def demoFromStr : TomlFromStr := fun s =>
  if s = demoManifestText then Except.ok demoManifest
  else if s = demoManifestText2 then Except.ok demoManifest2
  else Except.error (.parse "expected a table")

/-- Modelled from the spec: stand-in for `CargoVcsInfo::from_contents`
(crates_io_tarball/src/vcs_info.rs, not part of this tree), which parses the
JSON text tolerantly; here one recognized document succeeds and everything
else is a parse error. -/
def demoVcsParse : VcsFromContents := fun s =>
  if s = "vcs-ok" then Except.ok ⟨"path/in/vcs"⟩
  else Except.error "invalid JSON"

/-- Valid manifest entry at the canonical path of package root
`foo-0.0.1`. -/
def demoManifestEntry : Entry :=
  ⟨"foo-0.0.1/Cargo.toml", .regular, asciiBytes demoManifestText⟩

/-- A rust-version string is accepted when absent or validating cleanly. -/
def rustVersionAccepted (p : Package) : Bool :=
  match p.rustVersionStr with
  | some v => decide (validate_rust_version v = Except.ok ())
  | none => true

/-- The VCS parse of an entry's contents yields no value (used to state the
amended C8: either the contents do not decode, or the parse fails). -/
def vcsParseFailsOn (vcsParse : VcsFromContents) (e : Entry) : Bool :=
  match utf8Decode? e.contents with
  | some s => (vcsParse s).toOption.isNone
  | none => true

/-- Contents never exceed their padded length. -/
theorem le_pad512 (n : Nat) : n ≤ pad512 n := by
  unfold pad512
  omega

/-- Every entry occupies at least its header block. -/
theorem entrySize_ge (e : Entry) : 512 ≤ entrySize e := by
  unfold entrySize
  omega

/-- Processing one clean entry advances the loop: the offset moves past the
entry and the captured state is updated by `scanStep`. -/
theorem processLoop_clean_step (fromStr : TomlFromStr)
    (vcsParse : VcsFromContents) (pkg_name : String) (max_unpack : Nat)
    (e : Entry) (rest : List Entry) (pos : Nat) (man? : Option Manifest)
    (vcs? : Option CargoVcsInfo)
    (hce : entryClean fromStr pkg_name e = true)
    (hcap : pos + entrySize e ≤ max_unpack) :
    processLoop fromStr vcsParse pkg_name max_unpack (e :: rest) pos man? vcs? =
      processLoop fromStr vcsParse pkg_name max_unpack rest (pos + entrySize e)
        (scanStep fromStr vcsParse pkg_name (man?, vcs?) e).1
        (scanStep fromStr vcsParse pkg_name (man?, vcs?) e).2 := by
  have hpad := le_pad512 e.contents.length
  have h512 : ¬ (max_unpack < pos + 512) := by
    unfold entrySize at hcap
    omega
  have hlen : ¬ (max_unpack < pos + 512 + e.contents.length) := by
    unfold entrySize at hcap
    omega
  simp only [entryClean, Bool.and_eq_true, Bool.not_eq_true'] at hce
  obtain ⟨⟨hpath, hlink⟩, hbranch⟩ := hce
  by_cases hvcs : isVcsCandidate pkg_name e = true
  · rw [if_pos hvcs] at hbranch
    obtain ⟨s, hs⟩ := Option.isSome_iff_exists.mp hbranch
    simp only [isVcsCandidate] at hvcs
    simp only [processLoop, if_neg h512, hpath, Bool.not_true, Bool.false_eq_true,
      if_false, hlink, hvcs, if_true, if_neg hlen, hs]
    simp only [scanStep, isVcsCandidate, hvcs, if_true, hs]
  · rw [if_neg hvcs] at hbranch
    by_cases hman : isManifestCandidate pkg_name e = true
    · rw [if_pos hman] at hbranch
      split at hbranch
      · simp at hbranch
      · rename_i s hd
        split at hbranch
        · simp at hbranch
        · rename_i m hp
          split at hbranch
          · rename_i u hv
            have hvcs' : pathEq e.path (vcs_info_path pkg_name) = false := by
              simpa [isVcsCandidate] using hvcs
            have hman' := hman
            simp only [isManifestCandidate] at hman'
            simp only [processLoop, if_neg h512, hpath, Bool.not_true,
              Bool.false_eq_true, if_false, hlink, hvcs', if_neg hlen, hd, hp, hv,
              hman']
            simp only [scanStep, isVcsCandidate, hvcs', isManifestCandidate, hman',
              hd, hp]
            split
            · rfl
            · rfl
          · simp at hbranch
    · have hvcs' : pathEq e.path (vcs_info_path pkg_name) = false := by
        simpa [isVcsCandidate] using hvcs
      have hman' : (pathEq e.path (manifest_path pkg_name) ||
          pathEq e.path (manifest_path_lower pkg_name)) = false := by
        simpa [isManifestCandidate] using hman
      simp only [processLoop, if_neg h512, hpath, Bool.not_true, Bool.false_eq_true,
        if_false, hlink, hvcs', hman']
      simp only [scanStep, isVcsCandidate, hvcs', isManifestCandidate, hman']
      rfl

/-- Processing a clean prefix of the archive reaches the remainder with the
offset advanced past the prefix and the state accumulated by the scan. -/
theorem processLoop_append (fromStr : TomlFromStr) (vcsParse : VcsFromContents)
    (pkg_name : String) (max_unpack : Nat) (pre rest : List Entry) (pos : Nat)
    (man? : Option Manifest) (vcs? : Option CargoVcsInfo)
    (hclean : ∀ e ∈ pre, entryClean fromStr pkg_name e = true)
    (hcap : pos + entriesSize pre ≤ max_unpack) :
    processLoop fromStr vcsParse pkg_name max_unpack (pre ++ rest) pos man? vcs? =
      processLoop fromStr vcsParse pkg_name max_unpack rest
        (pos + entriesSize pre)
        (scanEntries fromStr vcsParse pkg_name pre (man?, vcs?)).1
        (scanEntries fromStr vcsParse pkg_name pre (man?, vcs?)).2 := by
  induction pre generalizing pos man? vcs? with
  | nil =>
    simp [scanEntries, entriesSize]
  | cons e pre ih =>
    have hsz : entriesSize (e :: pre) = entrySize e + entriesSize pre := rfl
    have hce : entryClean fromStr pkg_name e = true := hclean e (by simp)
    have hsize : pos + entrySize e ≤ max_unpack := by omega
    rw [List.cons_append, processLoop_clean_step fromStr vcsParse pkg_name
      max_unpack e (pre ++ rest) pos man? vcs? hce hsize]
    rw [ih (pos + entrySize e)
      (scanStep fromStr vcsParse pkg_name (man?, vcs?) e).1
      (scanStep fromStr vcsParse pkg_name (man?, vcs?) e).2
      (fun x hx => hclean x (List.mem_cons_of_mem e hx)) (by omega)]
    have hfold : scanEntries fromStr vcsParse pkg_name (e :: pre) (man?, vcs?) =
        scanEntries fromStr vcsParse pkg_name pre
          (scanStep fromStr vcsParse pkg_name (man?, vcs?) e) := rfl
    have harith : pos + entrySize e + entriesSize pre =
        pos + entriesSize (e :: pre) := by omega
    rw [harith, hfold]

/-- Clean run of the whole pipeline: when every entry is clean and the cap
covers the full decompressed size, the outcome is determined by the
accumulated scan state (success, or `MissingManifest` when no manifest
candidate was captured). -/
theorem process_tarball_clean (fromStr : TomlFromStr)
    (vcsParse : VcsFromContents) (pkg_name : String) (entries : List Entry)
    (max_unpack : Nat)
    (hclean : ∀ e ∈ entries, entryClean fromStr pkg_name e = true)
    (hcap : tarSize entries ≤ max_unpack) :
    process_tarball fromStr vcsParse pkg_name entries max_unpack =
      match scanEntries fromStr vcsParse pkg_name entries (none, none) with
      | (none, _) => Except.error .MissingManifest
      | (some m, v) => Except.ok ⟨m, v⟩ := by
  unfold process_tarball
  have happ := processLoop_append fromStr vcsParse pkg_name max_unpack entries []
    0 none none hclean (by unfold tarSize at hcap; omega)
  rw [List.append_nil] at happ
  rw [happ]
  have hnocap : ¬ (max_unpack < 0 + entriesSize entries + 1024) := by
    unfold tarSize at hcap
    omega
  simp only [processLoop, if_neg hnocap]
  rcases scanEntries fromStr vcsParse pkg_name entries (none, none) with ⟨m?, v⟩
  rcases m? with _ | m
  · rfl
  · rfl

/-- When every entry is clean but the cap falls short of the decompressed
size, the run aborts with the cap error: `Malformed` when the shortfall is
detected while the entry iterator advances, or an I/O error when it is
detected while reading a recognized entry's contents. -/
theorem processLoop_cap_exceeded (fromStr : TomlFromStr)
    (vcsParse : VcsFromContents) (pkg_name : String) (max_unpack : Nat)
    (es : List Entry) (pos : Nat) (man? : Option Manifest)
    (vcs? : Option CargoVcsInfo)
    (hclean : ∀ e ∈ es, entryClean fromStr pkg_name e = true)
    (hcap : max_unpack < pos + entriesSize es + 1024) :
    processLoop fromStr vcsParse pkg_name max_unpack es pos man? vcs? =
        Except.error (.Malformed .limitReached) ∨
      processLoop fromStr vcsParse pkg_name max_unpack es pos man? vcs? =
        Except.error (.Io .limitReached) := by
  induction es generalizing pos man? vcs? with
  | nil =>
    left
    have : max_unpack < pos + 1024 := by
      unfold entriesSize at hcap
      omega
    simp [processLoop, this]
  | cons e rest ih =>
    by_cases h512 : max_unpack < pos + 512
    · left
      simp [processLoop, h512]
    · have hce : entryClean fromStr pkg_name e = true := hclean e (by simp)
      by_cases hread : pos + entrySize e ≤ max_unpack
      · rw [processLoop_clean_step fromStr vcsParse pkg_name max_unpack e rest pos
          man? vcs? hce hread]
        exact ih _ _ _ (fun x hx => hclean x (by simp [hx])) (by
          have : entriesSize (e :: rest) = entrySize e + entriesSize rest := rfl
          omega)
      · -- the cap falls inside this entry: either within its contents while a
        -- recognized entry is read (I/O error), or while the iterator skips
        -- to the next header (Malformed on the next step)
        simp only [entryClean, Bool.and_eq_true, Bool.not_eq_true'] at hce
        obtain ⟨⟨hpath, hlink⟩, hbranch⟩ := hce
        by_cases hvcs : isVcsCandidate pkg_name e = true
        · rw [if_pos hvcs] at hbranch
          obtain ⟨s, hs⟩ := Option.isSome_iff_exists.mp hbranch
          simp only [isVcsCandidate] at hvcs
          by_cases hlen : max_unpack < pos + 512 + e.contents.length
          · right
            simp only [processLoop, if_neg h512, hpath, Bool.not_true,
              Bool.false_eq_true, if_false, hlink, hvcs, if_true, if_pos hlen]
          · -- contents fit but the padding or next header does not: the
            -- recursive call starts past the cap and fails immediately
            rw [show processLoop fromStr vcsParse pkg_name max_unpack
                (e :: rest) pos man? vcs? =
                processLoop fromStr vcsParse pkg_name max_unpack rest
                  (pos + entrySize e) man? (vcsParse s).toOption from by
              simp only [processLoop, if_neg h512, hpath, Bool.not_true,
                Bool.false_eq_true, if_false, hlink, hvcs, if_true, if_neg hlen,
                hs]]
            left
            have hnext : max_unpack < pos + entrySize e + 512 := by omega
            rcases rest with _ | ⟨r, rest'⟩
            · simp only [processLoop]
              rw [if_pos (by omega)]
            · simp only [processLoop]
              rw [if_pos hnext]
        · rw [if_neg hvcs] at hbranch
          by_cases hman : isManifestCandidate pkg_name e = true
          · rw [if_pos hman] at hbranch
            split at hbranch
            · simp at hbranch
            · rename_i s hd
              split at hbranch
              · simp at hbranch
              · rename_i m hp
                split at hbranch
                · rename_i u hv
                  have hvcs' : pathEq e.path (vcs_info_path pkg_name) = false := by
                    simpa [isVcsCandidate] using hvcs
                  have hman' := hman
                  simp only [isManifestCandidate] at hman'
                  by_cases hlen : max_unpack < pos + 512 + e.contents.length
                  · right
                    simp only [processLoop, if_neg h512, hpath, Bool.not_true,
                      Bool.false_eq_true, if_false, hlink, hvcs', hman', if_true,
                      if_pos hlen]
                  · rw [show processLoop fromStr vcsParse pkg_name max_unpack
                        (e :: rest) pos man? vcs? =
                        processLoop fromStr vcsParse pkg_name max_unpack rest
                          (pos + entrySize e) (some m) vcs? from by
                      simp only [processLoop, if_neg h512, hpath, Bool.not_true,
                        Bool.false_eq_true, if_false, hlink, hvcs', hman', if_true,
                        if_neg hlen, hd, hp, hv]]
                    left
                    have hnext : max_unpack < pos + entrySize e + 512 := by omega
                    rcases rest with _ | ⟨r, rest'⟩
                    · simp only [processLoop]
                      rw [if_pos (by omega)]
                    · simp only [processLoop]
                      rw [if_pos hnext]
                · simp at hbranch
          · have hvcs' : pathEq e.path (vcs_info_path pkg_name) = false := by
              simpa [isVcsCandidate] using hvcs
            have hman' : (pathEq e.path (manifest_path pkg_name) ||
                pathEq e.path (manifest_path_lower pkg_name)) = false := by
              simpa [isManifestCandidate] using hman
            rw [show processLoop fromStr vcsParse pkg_name max_unpack
                (e :: rest) pos man? vcs? =
                processLoop fromStr vcsParse pkg_name max_unpack rest
                  (pos + entrySize e) man? vcs? from by
              simp only [processLoop, if_neg h512, hpath, Bool.not_true,
                Bool.false_eq_true, if_false, hlink, hvcs', hman']]
            left
            have hnext : max_unpack < pos + entrySize e + 512 := by omega
            rcases rest with _ | ⟨r, rest'⟩
            · simp only [processLoop]
              rw [if_pos (by omega)]
            · simp only [processLoop]
              rw [if_pos hnext]

/-- Claim C4: with a `[package]` table present, `validate_manifest` accepts
exactly when none of the sixteen listed package fields is in the inherited
state, no dependency in the normal, dev, or build sets is inherited, and —
all else being equal — the rust-version string, if any, is itself valid.
In particular any single inherited field or dependency forces a rejection,
and resolving all of them (with the rest of the manifest valid) yields
acceptance. -/
theorem claim_C4 (m : Manifest) (p : Package) (hp : m.package = some p) :
    validate_manifest m = Except.ok () ↔
      (packageFieldInherited p = false ∧
        (depsSetIsInherited m.dependencies ||
          depsSetIsInherited m.dev_dependencies ||
          depsSetIsInherited m.build_dependencies) = false ∧
        rustVersionAccepted p = true) := by
  unfold validate_manifest
  rw [hp]
  unfold validate_package rustVersionAccepted
  by_cases hfi : packageFieldInherited p = true
  · simp [hfi]
  · rw [Bool.not_eq_true] at hfi
    simp only [hfi, Bool.false_eq_true, if_false]
    rcases hrv : p.rustVersionStr with _ | v
    · by_cases hd : (depsSetIsInherited m.dependencies ||
          depsSetIsInherited m.dev_dependencies ||
          depsSetIsInherited m.build_dependencies) = true
      · simp [hd]
      · rw [Bool.not_eq_true] at hd
        simp [hd]
    · rcases hre : validate_rust_version v with e | u
      · simp [hre]
      · rcases u
        by_cases hd : (depsSetIsInherited m.dependencies ||
            depsSetIsInherited m.dev_dependencies ||
            depsSetIsInherited m.build_dependencies) = true
        · simp [hd, hre]
        · rw [Bool.not_eq_true] at hd
          simp [hd, hre]

/-- Witness for C4 at a concrete manifest: the fully resolved demo manifest
is accepted, and its acceptance conditions hold. -/
theorem claim_C4_witness : validate_manifest demoManifest = Except.ok () :=
  (claim_C4 demoManifest demoPackage rfl).mpr (by decide)

/-- Claim C5: `validate_rust_version` accepts exactly the strings that parse
as a version requirement and consist only of ASCII digits and dots; in
particular `"1.59"` and `"1.59.0"` are accepted while `"^1.59"`, `"~1.59"`
and `"1.59-beta"` are rejected with the invalid-rust-version diagnostic
(which `process_tarball` surfaces as `InvalidManifest`). -/
theorem claim_C5 :
    (∀ s : String, validate_rust_version s = Except.ok () ↔
      (Semver.versionReqParses s = true ∧
        s.data.all (fun c => c.isDigit || c == '.') = true)) ∧
    validate_rust_version "1.59" = Except.ok () ∧
    validate_rust_version "1.59.0" = Except.ok () ∧
    validate_rust_version "^1.59" =
      Except.error (.other "invalid `rust-version` value") ∧
    validate_rust_version "~1.59" =
      Except.error (.other "invalid `rust-version` value") ∧
    validate_rust_version "1.59-beta" =
      Except.error (.other "invalid `rust-version` value") := by
  refine ⟨fun s => ?_, by decide, by decide, by decide, by decide, by decide⟩
  unfold validate_rust_version
  by_cases hp : Semver.versionReqParses s = true
  · by_cases hc : s.data.all (fun c => c.isDigit || c == '.') = true
    · simp [hp, hc]
    · rw [Bool.not_eq_true] at hc
      simp [hp, hc]
  · rw [Bool.not_eq_true] at hp
    simp [hp]

/-- Sizes add over archive concatenation. -/
theorem entriesSize_append (xs ys : List Entry) :
    entriesSize (xs ++ ys) = entriesSize xs + entriesSize ys := by
  induction xs with
  | nil => simp [entriesSize]
  | cons e xs ih =>
    show entrySize e + entriesSize (xs ++ ys) = entrySize e + entriesSize xs +
      entriesSize ys
    omega

/-- Every component list is a component-wise prefix of itself. -/
theorem componentsStartWith_self (l : List PathComponent) :
    componentsStartWith l l = true := by
  induction l with
  | nil => rfl
  | cons a l ih => simp [componentsStartWith, ih]

/-- Scanning the archive splits along concatenation. -/
theorem scanEntries_append (fromStr : TomlFromStr) (vcsParse : VcsFromContents)
    (pkg_name : String) (xs ys : List Entry)
    (acc : Option Manifest × Option CargoVcsInfo) :
    scanEntries fromStr vcsParse pkg_name (xs ++ ys) acc =
      scanEntries fromStr vcsParse pkg_name ys
        (scanEntries fromStr vcsParse pkg_name xs acc) := by
  unfold scanEntries
  exact List.foldl_append _ _ _ _

/-- Scanning entries with no manifest candidate leaves the captured manifest
unchanged. -/
theorem scanEntries_fst_preserved (fromStr : TomlFromStr)
    (vcsParse : VcsFromContents) (pkg_name : String) (es : List Entry)
    (acc : Option Manifest × Option CargoVcsInfo)
    (h : ∀ x ∈ es, isManifestCandidate pkg_name x = false) :
    (scanEntries fromStr vcsParse pkg_name es acc).1 = acc.1 := by
  induction es generalizing acc with
  | nil => rfl
  | cons e es ih =>
    have he : isManifestCandidate pkg_name e = false := h e (by simp)
    have hrest : ∀ x ∈ es, isManifestCandidate pkg_name x = false :=
      fun x hx => h x (List.mem_cons_of_mem e hx)
    show (scanEntries fromStr vcsParse pkg_name es
      (scanStep fromStr vcsParse pkg_name acc e)).1 = acc.1
    rw [ih _ hrest]
    unfold scanStep
    by_cases hv : isVcsCandidate pkg_name e = true
    · simp only [hv, if_true]
      rcases utf8Decode? e.contents with _ | s
      · rfl
      · rfl
    · rw [Bool.not_eq_true] at hv
      simp only [hv, he, Bool.false_eq_true, if_false]

/-- Scanning entries whose VCS candidates all fail to produce a value keeps
the captured VCS info absent. -/
theorem scanEntries_snd_none (fromStr : TomlFromStr)
    (vcsParse : VcsFromContents) (pkg_name : String) (es : List Entry)
    (acc : Option Manifest × Option CargoVcsInfo) (hacc : acc.2 = none)
    (h : ∀ x ∈ es, isVcsCandidate pkg_name x = true →
      vcsParseFailsOn vcsParse x = true) :
    (scanEntries fromStr vcsParse pkg_name es acc).2 = none := by
  induction es generalizing acc with
  | nil => exact hacc
  | cons e es ih =>
    have hrest : ∀ x ∈ es, isVcsCandidate pkg_name x = true →
        vcsParseFailsOn vcsParse x = true :=
      fun x hx => h x (List.mem_cons_of_mem e hx)
    show (scanEntries fromStr vcsParse pkg_name es
      (scanStep fromStr vcsParse pkg_name acc e)).2 = none
    refine ih _ ?_ hrest
    unfold scanStep
    by_cases hv : isVcsCandidate pkg_name e = true
    · have hfail := h e (by simp) hv
      unfold vcsParseFailsOn at hfail
      simp only [hv, if_true]
      rcases hd : utf8Decode? e.contents with _ | s
      · exact hacc
      · rw [hd] at hfail
        simpa [Option.isNone_iff_eq_none] using hfail
    · rw [Bool.not_eq_true] at hv
      simp only [hv, Bool.false_eq_true, if_false]
      by_cases hm : isManifestCandidate pkg_name e = true
      · simp only [hm, if_true]
        rcases hd : utf8Decode? e.contents with _ | s
        · simp only [hd]
          exact hacc
        · simp only [hd]
          rcases hp : fromStr s with err | m
          · simp only [hp]
            exact hacc
          · simp only [hp]
            exact hacc
      · rw [Bool.not_eq_true] at hm
        simp only [hm, Bool.false_eq_true, if_false]
        exact hacc

/-- A manifest-candidate entry that decodes and parses overwrites the
captured manifest and leaves the VCS state alone. -/
theorem scanStep_manifest (fromStr : TomlFromStr) (vcsParse : VcsFromContents)
    (pkg_name : String) (acc : Option Manifest × Option CargoVcsInfo)
    (e : Entry) (s : String) (m : Manifest)
    (hnv : isVcsCandidate pkg_name e = false)
    (hcand : isManifestCandidate pkg_name e = true)
    (hdec : utf8Decode? e.contents = some s) (hp : fromStr s = Except.ok m) :
    scanStep fromStr vcsParse pkg_name acc e = (some m, acc.2) := by
  unfold scanStep
  simp only [hnv, Bool.false_eq_true, if_false, hcand, if_true, hdec, hp]

/-- Counterexample to C1 as stated: the entry path `"foo-0.0.1"` does not
begin with the string prefix `"foo-0.0.1/"`, yet the archive is accepted —
the source check is `Path::starts_with`, which compares whole components,
so the bare package-root path passes and no `InvalidPath` error is
returned. -/
theorem claim_C1_counterexample :
    List.isPrefixOf "foo-0.0.1/".data "foo-0.0.1".data = false ∧
    process_tarball demoFromStr demoVcsParse "foo-0.0.1"
      [⟨"foo-0.0.1", .regular, [65]⟩, demoManifestEntry] 4096 =
      Except.ok ⟨demoManifest, none⟩ :=
  ⟨by decide, by decide⟩

/-- Claim C1 (amended): whenever an entry's declared path is not under the
package root in the component-wise sense of `Path::starts_with` (so the
path exactly equal to `"{name}-{version}"` is allowed), and processing
reaches that entry (the preceding entries are clean and the cap covers the
archive), the pipeline stops with `InvalidPath` naming that path —
regardless of the entry's position, even after a valid manifest. -/
theorem claim_C1_amended (fromStr : TomlFromStr) (vcsParse : VcsFromContents)
    (pkg_name : String) (pre : List Entry) (e : Entry) (post : List Entry)
    (max_unpack : Nat)
    (hpre : ∀ x ∈ pre, entryClean fromStr pkg_name x = true)
    (hcap : tarSize (pre ++ e :: post) ≤ max_unpack)
    (hbad : pathStartsWith e.path pkg_name = false) :
    process_tarball fromStr vcsParse pkg_name (pre ++ e :: post) max_unpack =
      Except.error (.InvalidPath e.path) := by
  unfold process_tarball
  have hsz : entriesSize (pre ++ e :: post) =
      entriesSize pre + (entrySize e + entriesSize post) := by
    rw [entriesSize_append]
    rfl
  have hes : 512 ≤ entrySize e := entrySize_ge e
  have htar : tarSize (pre ++ e :: post) =
      entriesSize (pre ++ e :: post) + 1024 := rfl
  rw [processLoop_append fromStr vcsParse pkg_name max_unpack pre (e :: post) 0
    none none hpre (by omega)]
  have h512 : ¬ (max_unpack < 0 + entriesSize pre + 512) := by omega
  simp only [processLoop, if_neg h512, hbad, Bool.not_false, if_true]

/-- Witness for the amended C1: a wrong-rooted entry after a valid manifest
entry is reported as `InvalidPath` with its path. -/
theorem claim_C1_amended_witness :
    process_tarball demoFromStr demoVcsParse "foo-0.0.1"
      [demoManifestEntry, ⟨"bar/x", .regular, []⟩] 4096 =
      Except.error (.InvalidPath "bar/x") :=
  claim_C1_amended demoFromStr demoVcsParse "foo-0.0.1" [demoManifestEntry]
    ⟨"bar/x", .regular, []⟩ [] 4096 (by decide) (by decide) (by decide)

/-- Claim C2: a symlink or hard-link entry under the package root stops the
pipeline with `UnexpectedSymlink` naming its path, at any position in the
stream — in particular even when a valid manifest entry was already
processed earlier (the preceding entries being clean and the cap covering
the archive). -/
theorem claim_C2 (fromStr : TomlFromStr) (vcsParse : VcsFromContents)
    (pkg_name : String) (pre : List Entry) (e : Entry) (post : List Entry)
    (max_unpack : Nat)
    (hpre : ∀ x ∈ pre, entryClean fromStr pkg_name x = true)
    (hcap : tarSize (pre ++ e :: post) ≤ max_unpack)
    (hunder : pathStartsWith e.path pkg_name = true)
    (hlink : e.entry_type.isLink = true) :
    process_tarball fromStr vcsParse pkg_name (pre ++ e :: post) max_unpack =
      Except.error (.UnexpectedSymlink e.path) := by
  unfold process_tarball
  have hsz : entriesSize (pre ++ e :: post) =
      entriesSize pre + (entrySize e + entriesSize post) := by
    rw [entriesSize_append]
    rfl
  have hes : 512 ≤ entrySize e := entrySize_ge e
  have htar : tarSize (pre ++ e :: post) =
      entriesSize (pre ++ e :: post) + 1024 := rfl
  rw [processLoop_append fromStr vcsParse pkg_name max_unpack pre (e :: post) 0
    none none hpre (by omega)]
  have h512 : ¬ (max_unpack < 0 + entriesSize pre + 512) := by omega
  simp only [processLoop, if_neg h512, hunder, Bool.not_true,
    Bool.false_eq_true, if_false, hlink, if_true]

/-- Witness for C2: a symlink entry following a valid manifest entry is
reported as `UnexpectedSymlink` with its path. -/
theorem claim_C2_witness :
    process_tarball demoFromStr demoVcsParse "foo-0.0.1"
      [demoManifestEntry, ⟨"foo-0.0.1/ln", .symlink, []⟩] 4096 =
      Except.error (.UnexpectedSymlink "foo-0.0.1/ln") :=
  claim_C2 demoFromStr demoVcsParse "foo-0.0.1" [demoManifestEntry]
    ⟨"foo-0.0.1/ln", .symlink, []⟩ [] 4096 (by decide) (by decide) (by decide)
    (by decide)

/-- Claim C10: for an entry that is both outside the package root and a
symlink or hard link, the path check fires first: the pipeline reports
`InvalidPath`, not `UnexpectedSymlink`. -/
theorem claim_C10 (fromStr : TomlFromStr) (vcsParse : VcsFromContents)
    (pkg_name : String) (pre : List Entry) (e : Entry) (post : List Entry)
    (max_unpack : Nat)
    (hpre : ∀ x ∈ pre, entryClean fromStr pkg_name x = true)
    (hcap : tarSize (pre ++ e :: post) ≤ max_unpack)
    (hbad : pathStartsWith e.path pkg_name = false)
    (hlink : e.entry_type.isLink = true) :
    process_tarball fromStr vcsParse pkg_name (pre ++ e :: post) max_unpack =
      Except.error (.InvalidPath e.path) := by
  unfold process_tarball
  have hsz : entriesSize (pre ++ e :: post) =
      entriesSize pre + (entrySize e + entriesSize post) := by
    rw [entriesSize_append]
    rfl
  have hes : 512 ≤ entrySize e := entrySize_ge e
  have htar : tarSize (pre ++ e :: post) =
      entriesSize (pre ++ e :: post) + 1024 := rfl
  rw [processLoop_append fromStr vcsParse pkg_name max_unpack pre (e :: post) 0
    none none hpre (by omega)]
  have h512 : ¬ (max_unpack < 0 + entriesSize pre + 512) := by omega
  simp only [processLoop, if_neg h512, hbad, Bool.not_false, if_true]

/-- Witness for C10: a symlink entry rooted outside the package directory is
reported as `InvalidPath`, not `UnexpectedSymlink`. -/
theorem claim_C10_witness :
    process_tarball demoFromStr demoVcsParse "foo-0.0.1"
      [⟨"bar/evil", .symlink, []⟩, demoManifestEntry] 4096 =
      Except.error (.InvalidPath "bar/evil") :=
  claim_C10 demoFromStr demoVcsParse "foo-0.0.1" []
    ⟨"bar/evil", .symlink, []⟩ [demoManifestEntry] 4096 (by simp) (by decide)
    (by decide) (by decide)

/-- Claim C9: the entry-path check matches whole path components.  Any path
is under itself, so an entry whose path is exactly the package root (no
trailing separator) passes the check, while a path whose first component
merely extends the root string is not under it; concretely, the pipeline
accepts an archive with a bare `"foo-0.0.1"` entry and rejects a
`"foo-0.0.1x/file"` entry with `InvalidPath`. -/
theorem claim_C9 :
    (∀ p : String, pathStartsWith p p = true) ∧
    (∀ (pkg_name a : String) (l : List PathComponent) (ep : String),
      pathComponents pkg_name = [PathComponent.normal pkg_name] →
      pathComponents ep = PathComponent.normal a :: l →
      List.isPrefixOf pkg_name.data a.data = true → a ≠ pkg_name →
      pathStartsWith ep pkg_name = false) ∧
    process_tarball demoFromStr demoVcsParse "foo-0.0.1"
      [⟨"foo-0.0.1", .directory, []⟩, demoManifestEntry] 4096 =
      Except.ok ⟨demoManifest, none⟩ ∧
    process_tarball demoFromStr demoVcsParse "foo-0.0.1"
      [⟨"foo-0.0.1x/file", .regular, []⟩, demoManifestEntry] 4096 =
      Except.error (.InvalidPath "foo-0.0.1x/file") := by
  refine ⟨fun p => ?_, fun pkg_name a l ep h1 h2 hpre hne => ?_, by decide,
    by decide⟩
  · unfold pathStartsWith
    exact componentsStartWith_self _
  · unfold pathStartsWith
    rw [h1, h2]
    show (if PathComponent.normal pkg_name = PathComponent.normal a then
      componentsStartWith [] l else false) = false
    rw [if_neg]
    intro h
    exact hne (PathComponent.normal.inj h).symm

/-- Witness for C9: the component-wise facts at the concrete package root
`"foo-0.0.1"`. -/
theorem claim_C9_witness :
    pathStartsWith "foo-0.0.1" "foo-0.0.1" = true ∧
    pathStartsWith "foo-0.0.1x/file" "foo-0.0.1" = false :=
  ⟨claim_C9.1 "foo-0.0.1",
    claim_C9.2.1 "foo-0.0.1" "foo-0.0.1x" [PathComponent.normal "file"]
      "foo-0.0.1x/file" (by decide) (by decide) (by decide) (by decide)⟩

/-- Counterexample to C3 as stated: an archive whose `Cargo.toml` entry
parses to one manifest and whose later `cargo.toml` entry parses to a
different one yields the manifest of the LAST matching entry — the loop
assignment overwrites the earlier capture, so the first match does not
win. -/
theorem claim_C3_counterexample :
    demoFromStr demoManifestText = Except.ok demoManifest ∧
    process_tarball demoFromStr demoVcsParse "foo-0.0.1"
      [demoManifestEntry,
        ⟨"foo-0.0.1/cargo.toml", .regular, asciiBytes demoManifestText2⟩] 4096 =
      Except.ok ⟨demoManifest2, none⟩ ∧
    decide (demoManifest2 = demoManifest) = false :=
  ⟨by decide, by decide, by decide⟩

/-- Claim C3 (amended): when an archive contains several manifest-candidate
entries, the one returned is the LAST candidate in stream order (every
matching entry is parsed, validated, and overwrites the previous capture). -/
theorem claim_C3_amended (fromStr : TomlFromStr) (vcsParse : VcsFromContents)
    (pkg_name : String) (pre : List Entry) (e : Entry) (post : List Entry)
    (max_unpack : Nat) (s : String) (m : Manifest)
    (hclean : ∀ x ∈ pre ++ e :: post, entryClean fromStr pkg_name x = true)
    (hcap : tarSize (pre ++ e :: post) ≤ max_unpack)
    (hnv : isVcsCandidate pkg_name e = false)
    (hcand : isManifestCandidate pkg_name e = true)
    (hdec : utf8Decode? e.contents = some s)
    (hparse : fromStr s = Except.ok m)
    (hpost : ∀ x ∈ post, isManifestCandidate pkg_name x = false) :
    ∃ v, process_tarball fromStr vcsParse pkg_name (pre ++ e :: post)
      max_unpack = Except.ok ⟨m, v⟩ := by
  have hfst : (scanEntries fromStr vcsParse pkg_name (pre ++ e :: post)
      (none, none)).1 = some m := by
    rw [scanEntries_append]
    have hcons : scanEntries fromStr vcsParse pkg_name (e :: post)
        (scanEntries fromStr vcsParse pkg_name pre (none, none)) =
        scanEntries fromStr vcsParse pkg_name post
          (scanStep fromStr vcsParse pkg_name
            (scanEntries fromStr vcsParse pkg_name pre (none, none)) e) := rfl
    rw [hcons, scanEntries_fst_preserved fromStr vcsParse pkg_name post _ hpost,
      scanStep_manifest fromStr vcsParse pkg_name _ e s m hnv hcand hdec hparse]
  rw [process_tarball_clean fromStr vcsParse pkg_name (pre ++ e :: post)
    max_unpack hclean hcap]
  refine ⟨(scanEntries fromStr vcsParse pkg_name (pre ++ e :: post)
    (none, none)).2, ?_⟩
  rcases hscan : scanEntries fromStr vcsParse pkg_name (pre ++ e :: post)
    (none, none) with ⟨m?, v⟩
  rw [hscan] at hfst
  cases m? with
  | none => exact absurd hfst (by simp)
  | some m' =>
    have hm : m' = m := by simpa using hfst
    subst hm
    rfl

/-- Witness for the amended C3: with a `Cargo.toml` entry followed by a
`cargo.toml` entry, the pipeline returns the manifest parsed from the
second. -/
theorem claim_C3_amended_witness :
    ∃ v, process_tarball demoFromStr demoVcsParse "foo-0.0.1"
      [demoManifestEntry,
        ⟨"foo-0.0.1/cargo.toml", .regular, asciiBytes demoManifestText2⟩] 4096 =
      Except.ok ⟨demoManifest2, v⟩ :=
  claim_C3_amended demoFromStr demoVcsParse "foo-0.0.1" [demoManifestEntry]
    ⟨"foo-0.0.1/cargo.toml", .regular, asciiBytes demoManifestText2⟩ [] 4096
    demoManifestText2 demoManifest2 (by decide) (by decide) (by decide)
    (by decide) (by decide) (by decide) (by simp)

/-- Counterexample to C6 as stated: an archive of decompressed size 2048
processed under a cap of 550 fails, but with the `IO` error of the failing
`read_to_string` on the manifest contents, not with `Malformed` — the
`Malformed` wrapping applies only to failures raised while the entry
iterator advances. -/
theorem claim_C6_counterexample :
    tarSize [demoManifestEntry] = 2048 ∧
    process_tarball demoFromStr demoVcsParse "foo-0.0.1" [demoManifestEntry]
      550 = Except.error (.Io .limitReached) ∧
    decide (process_tarball demoFromStr demoVcsParse "foo-0.0.1"
      [demoManifestEntry] 550 =
      Except.error (.Malformed .limitReached)) = false :=
  ⟨by decide, by decide, by decide⟩

/-- Claim C6 (amended): over clean entries, exceeding the cap always aborts
the run — with `Malformed` when the shortfall is hit while the entry
iterator advances, or with an I/O error when it is hit while reading a
recognized entry's contents — and a cap at least the true decompressed size
never produces a cap failure: the run ends in the ordinary success /
missing-manifest outcome. -/
theorem claim_C6_amended (fromStr : TomlFromStr) (vcsParse : VcsFromContents)
    (pkg_name : String) (entries : List Entry) (max_unpack : Nat)
    (hclean : ∀ x ∈ entries, entryClean fromStr pkg_name x = true) :
    (max_unpack < tarSize entries →
      (process_tarball fromStr vcsParse pkg_name entries max_unpack =
          Except.error (.Malformed .limitReached) ∨
        process_tarball fromStr vcsParse pkg_name entries max_unpack =
          Except.error (.Io .limitReached))) ∧
    (tarSize entries ≤ max_unpack →
      process_tarball fromStr vcsParse pkg_name entries max_unpack =
        match scanEntries fromStr vcsParse pkg_name entries (none, none) with
        | (none, _) => Except.error .MissingManifest
        | (some m, v) => Except.ok ⟨m, v⟩) := by
  constructor
  · intro hcap
    unfold process_tarball
    exact processLoop_cap_exceeded fromStr vcsParse pkg_name max_unpack entries
      0 none none hclean (by unfold tarSize at hcap; omega)
  · intro hcap
    exact process_tarball_clean fromStr vcsParse pkg_name entries max_unpack
      hclean hcap

/-- Witness for the amended C6: the demo archive aborts under a 100-byte cap
and succeeds unchanged under a 4096-byte cap. -/
theorem claim_C6_amended_witness :
    (process_tarball demoFromStr demoVcsParse "foo-0.0.1" [demoManifestEntry]
        100 = Except.error (.Malformed .limitReached) ∨
      process_tarball demoFromStr demoVcsParse "foo-0.0.1" [demoManifestEntry]
        100 = Except.error (.Io .limitReached)) ∧
    process_tarball demoFromStr demoVcsParse "foo-0.0.1" [demoManifestEntry]
      4096 = Except.ok ⟨demoManifest, none⟩ :=
  ⟨(claim_C6_amended demoFromStr demoVcsParse "foo-0.0.1" [demoManifestEntry]
      100 (by decide)).1 (by decide),
    ((claim_C6_amended demoFromStr demoVcsParse "foo-0.0.1" [demoManifestEntry]
      4096 (by decide)).2 (by decide)).trans (by decide)⟩

/-- Counterexample to C7 as stated: a manifest-candidate entry whose content
is not valid UTF-8 makes the pipeline fail with the `IO` error variant
(from `read_to_string`), not with `InvalidManifest`. -/
theorem claim_C7_counterexample :
    utf8Decode? [255] = none ∧
    process_tarball demoFromStr demoVcsParse "foo-0.0.1"
      [⟨"foo-0.0.1/Cargo.toml", .regular, [255]⟩] 4096 =
      Except.error (.Io .invalidUtf8) ∧
    decide (process_tarball demoFromStr demoVcsParse "foo-0.0.1"
      [⟨"foo-0.0.1/Cargo.toml", .regular, [255]⟩] 4096 =
      Except.error (.InvalidManifest (.parse "expected a table"))) = false :=
  ⟨by decide, by decide, by decide⟩

/-- Claim C7 (amended): once a manifest candidate entry is reached, a parse
failure of its UTF-8 text fails the pipeline with `InvalidManifest`
carrying the parser's diagnostic, while a UTF-8 decode failure of its raw
bytes fails the pipeline with the `IO` error variant instead. -/
theorem claim_C7_amended (fromStr : TomlFromStr) (vcsParse : VcsFromContents)
    (pkg_name : String) (pre : List Entry) (e : Entry) (post : List Entry)
    (max_unpack : Nat)
    (hpre : ∀ x ∈ pre, entryClean fromStr pkg_name x = true)
    (hcap : tarSize (pre ++ e :: post) ≤ max_unpack)
    (hunder : pathStartsWith e.path pkg_name = true)
    (hlink : e.entry_type.isLink = false)
    (hnv : isVcsCandidate pkg_name e = false)
    (hcand : isManifestCandidate pkg_name e = true) :
    (utf8Decode? e.contents = none →
      process_tarball fromStr vcsParse pkg_name (pre ++ e :: post) max_unpack =
        Except.error (.Io .invalidUtf8)) ∧
    (∀ (s : String) (err : CargoTomlError), utf8Decode? e.contents = some s →
      fromStr s = Except.error err →
      process_tarball fromStr vcsParse pkg_name (pre ++ e :: post) max_unpack =
        Except.error (.InvalidManifest err)) := by
  have hsz : entriesSize (pre ++ e :: post) =
      entriesSize pre + (entrySize e + entriesSize post) := by
    rw [entriesSize_append]
    rfl
  have hpad := le_pad512 e.contents.length
  have hent : entrySize e = 512 + pad512 e.contents.length := rfl
  have htar : tarSize (pre ++ e :: post) =
      entriesSize (pre ++ e :: post) + 1024 := rfl
  have h512 : ¬ (max_unpack < 0 + entriesSize pre + 512) := by omega
  have hlen : ¬ (max_unpack < 0 + entriesSize pre + 512 + e.contents.length) :=
    by omega
  have hnv' : pathEq e.path (vcs_info_path pkg_name) = false := by
    simpa [isVcsCandidate] using hnv
  have hcand' : (pathEq e.path (manifest_path pkg_name) ||
      pathEq e.path (manifest_path_lower pkg_name)) = true := by
    simpa [isManifestCandidate] using hcand
  constructor
  · intro hdec
    unfold process_tarball
    rw [processLoop_append fromStr vcsParse pkg_name max_unpack pre (e :: post)
      0 none none hpre (by omega)]
    simp only [processLoop, if_neg h512, hunder, Bool.not_true,
      Bool.false_eq_true, if_false, hlink, hnv', hcand', if_true, if_neg hlen,
      hdec]
  · intro s err hdec hp
    unfold process_tarball
    rw [processLoop_append fromStr vcsParse pkg_name max_unpack pre (e :: post)
      0 none none hpre (by omega)]
    simp only [processLoop, if_neg h512, hunder, Bool.not_true,
      Bool.false_eq_true, if_false, hlink, hnv', hcand', if_true, if_neg hlen,
      hdec, hp]

/-- Witness for the amended C7: a non-UTF-8 manifest entry yields the `IO`
error, and a UTF-8 manifest entry that fails TOML parsing yields
`InvalidManifest` with the parser's diagnostic. -/
theorem claim_C7_amended_witness :
    process_tarball demoFromStr demoVcsParse "foo-0.0.1"
      [⟨"foo-0.0.1/Cargo.toml", .regular, [255]⟩] 8192 =
      Except.error (.Io .invalidUtf8) ∧
    process_tarball demoFromStr demoVcsParse "foo-0.0.1"
      [⟨"foo-0.0.1/Cargo.toml", .regular, asciiBytes "bad toml"⟩] 8192 =
      Except.error (.InvalidManifest (.parse "expected a table")) :=
  ⟨(claim_C7_amended demoFromStr demoVcsParse "foo-0.0.1" []
      ⟨"foo-0.0.1/Cargo.toml", .regular, [255]⟩ [] 8192 (by simp) (by decide)
      (by decide) (by decide) (by decide) (by decide)).1 (by decide),
    (claim_C7_amended demoFromStr demoVcsParse "foo-0.0.1" []
      ⟨"foo-0.0.1/Cargo.toml", .regular, asciiBytes "bad toml"⟩ [] 8192
      (by simp) (by decide) (by decide) (by decide) (by decide) (by decide)).2
      "bad toml" (.parse "expected a table") (by decide) (by decide)⟩

/-- Counterexample to C8 as stated: a `.cargo_vcs_info.json` entry whose
content is not valid UTF-8 certainly fails to parse as VCS info, yet the
pipeline fails with the `IO` error variant instead of downgrading the
failure to absent provenance. -/
theorem claim_C8_counterexample :
    utf8Decode? [255] = none ∧
    process_tarball demoFromStr demoVcsParse "foo-0.0.1"
      [demoManifestEntry,
        ⟨"foo-0.0.1/.cargo_vcs_info.json", .regular, [255]⟩] 4096 =
      Except.error (.Io .invalidUtf8) :=
  ⟨by decide, by decide⟩

/-- Claim C8 (amended): when every VCS-candidate entry's content decodes as
UTF-8 but fails the VCS parse (and the rest of the archive is clean and
within the cap), the failures are downgraded: the run does not abort, the
captured provenance is `None`, and the manifest outcome is exactly as
usual. -/
theorem claim_C8_amended (fromStr : TomlFromStr) (vcsParse : VcsFromContents)
    (pkg_name : String) (entries : List Entry) (max_unpack : Nat)
    (hclean : ∀ x ∈ entries, entryClean fromStr pkg_name x = true)
    (hcap : tarSize entries ≤ max_unpack)
    (hfail : ∀ x ∈ entries, isVcsCandidate pkg_name x = true →
      vcsParseFailsOn vcsParse x = true) :
    process_tarball fromStr vcsParse pkg_name entries max_unpack =
      match (scanEntries fromStr vcsParse pkg_name entries (none, none)).1 with
      | none => Except.error .MissingManifest
      | some m => Except.ok ⟨m, none⟩ := by
  rw [process_tarball_clean fromStr vcsParse pkg_name entries max_unpack hclean
    hcap]
  have hsnd := scanEntries_snd_none fromStr vcsParse pkg_name entries
    (none, none) rfl hfail
  rcases hscan : scanEntries fromStr vcsParse pkg_name entries (none, none)
    with ⟨m?, v⟩
  rw [hscan] at hsnd
  cases m? with
  | none => rfl
  | some m' =>
    have hv : v = none := by simpa using hsnd
    subst hv
    rfl

/-- Witness for the amended C8: an unparseable (but UTF-8) VCS info entry
after a valid manifest leaves the outcome a success with absent
provenance. -/
theorem claim_C8_amended_witness :
    process_tarball demoFromStr demoVcsParse "foo-0.0.1"
      [demoManifestEntry,
        ⟨"foo-0.0.1/.cargo_vcs_info.json", .regular, asciiBytes "bad"⟩] 4096 =
      Except.ok ⟨demoManifest, none⟩ :=
  (claim_C8_amended demoFromStr demoVcsParse "foo-0.0.1"
      [demoManifestEntry,
        ⟨"foo-0.0.1/.cargo_vcs_info.json", .regular, asciiBytes "bad"⟩] 4096
      (by decide) (by decide) (by decide)).trans (by decide)
